import Mathlib

/-!
Verification of the AR social map utilities: flight-pattern offsets
(`src/utils/flyingBehavior.ts`) and coordinate transforms
(`src/utils/coordinates.ts` / `developerObjects.ts`), embedded over ℝ.
JavaScript `Math.floor` is real floor; the JavaScript `%` operator is the
truncated remainder (sign of the dividend), modelled by `jsMod`.
-/

open Real Filter Set Topology

noncomputable section

namespace ARMap

/-- WGS84 geodetic position: latitude/longitude in degrees, altitude in meters. -/
@[ext] structure GeoPosition where
  latitude : ℝ
  longitude : ℝ
  altitude : ℝ

/-- The three flight patterns of `FlightPattern` in `flyingBehavior.ts`. -/
inductive FlightPattern
  | circle
  | random
  | figure8
deriving DecidableEq

/-- `FlightConfig` from `flyingBehavior.ts`. -/
@[ext] structure FlightConfig where
  pattern : FlightPattern
  radius : ℝ
  minAltitude : ℝ
  maxAltitude : ℝ
  speed : ℝ

/-- Default flight configuration from `flyingBehavior.ts`. -/
def defaultFlightConfig : FlightConfig :=
  { pattern := .circle, radius := 50, minAltitude := 20, maxAltitude := 50, speed := 1 }

/-- The record returned by `calculateFlightOffset` (all in meters). -/
@[ext] structure FlightOffset where
  latOffset : ℝ
  lonOffset : ℝ
  altOffset : ℝ

/-- JavaScript truncation toward zero, as used by the `%` operator. -/
def jsTrunc (x : ℝ) : ℤ := if 0 ≤ x then ⌊x⌋ else ⌈x⌉

/-- JavaScript remainder `a % n`: `a - n * trunc(a / n)` (sign of the dividend). -/
def jsMod (a n : ℝ) : ℝ := a - n * (jsTrunc (a / n) : ℝ)

/-- The inline noise function of the `random` branch:
`(s) => Math.sin(s * 127.1) * Math.cos(s * 311.7)`. -/
def noise (s : ℝ) : ℝ := Real.sin (s * 127.1) * Real.cos (s * 311.7)

/-- `calculateFlightOffset` from `flyingBehavior.ts`: time-based position offset
for each flight pattern.  `t = (timeMs / 1000) * speed * (π / 15)`. -/
def calculateFlightOffset (config : FlightConfig) (timeMs : ℝ) : FlightOffset :=
  let t := timeMs / 1000 * config.speed * (π / 15)
  match config.pattern with
  | .circle =>
      { latOffset := Real.sin t * config.radius
        lonOffset := Real.cos t * config.radius
        altOffset := config.minAltitude +
          (Real.sin (t * 0.5) + 1) * 0.5 * (config.maxAltitude - config.minAltitude) }
  | .figure8 =>
      { latOffset := Real.sin t * config.radius
        lonOffset := Real.sin (t * 2) * config.radius * 0.5
        altOffset := config.minAltitude +
          (Real.sin (t * 0.7) + 1) * 0.5 * (config.maxAltitude - config.minAltitude) }
  | .random =>
      let seed : ℝ := (⌊timeMs / 5000⌋ : ℤ)
      let phase := jsMod timeMs 5000 / 5000
      let prevLat := noise seed * config.radius
      let prevLon := noise (seed + 1000) * config.radius
      let nextLat := noise (seed + 1) * config.radius
      let nextLon := noise (seed + 1001) * config.radius
      let smooth := phase * phase * (3 - 2 * phase)
      { latOffset := prevLat + (nextLat - prevLat) * smooth
        lonOffset := prevLon + (nextLon - prevLon) * smooth
        altOffset := config.minAltitude +
          (Real.sin (t * 0.3) + 1) * 0.5 * (config.maxAltitude - config.minAltitude) }

/-- JavaScript `x || 0` on a number: `0` when `x` is falsy (i.e. `0`), else `x`. -/
def jsOr0 (x : ℝ) : ℝ := if x = 0 then 0 else x

theorem jsOr0_eq (x : ℝ) : jsOr0 x = x := by
  unfold jsOr0; split <;> simp_all

/-- `calculateCurrentPosition` from `flyingBehavior.ts`: base position plus the
flight offset, meters converted to degrees by the local flat-earth factors. -/
def calculateCurrentPosition (basePosition : GeoPosition) (config : FlightConfig)
    (timeMs : ℝ) : GeoPosition :=
  let offset := calculateFlightOffset config timeMs
  let metersPerDegreeLat : ℝ := 111320
  let metersPerDegreeLon : ℝ := 111320 * Real.cos (basePosition.latitude * π / 180)
  { latitude := basePosition.latitude + offset.latOffset / metersPerDegreeLat
    longitude := basePosition.longitude + offset.lonOffset / metersPerDegreeLon
    altitude := jsOr0 basePosition.altitude + offset.altOffset }

/-- ECEF (earth-centered earth-fixed) cartesian coordinates in meters. -/
@[ext] structure ECEFPosition where
  x : ℝ
  y : ℝ
  z : ℝ

/-- Local East-North-Up coordinates in meters. -/
@[ext] structure ENUPosition where
  east : ℝ
  north : ℝ
  up : ℝ

/-- Three.js scene coordinates: X right, Y up, -Z forward. -/
@[ext] structure ThreeJSPosition where
  x : ℝ
  y : ℝ
  z : ℝ

/-- Degrees to radians, as in `coordinates.ts`. -/
def toRadians (degrees : ℝ) : ℝ := degrees * π / 180

/-- WGS84 equatorial radius (m). -/
def WGS84a : ℝ := 6378137.0

/-- WGS84 flattening. -/
def WGS84f : ℝ := 1 / 298.257223563

/-- WGS84 squared eccentricity `2f - f²`. -/
def WGS84e2 : ℝ := 2 * WGS84f - WGS84f * WGS84f

/-- `geodeticToECEF` from `coordinates.ts`. -/
def geodeticToECEF (geo : GeoPosition) : ECEFPosition :=
  let latRad := toRadians geo.latitude
  let lonRad := toRadians geo.longitude
  let sinLat := Real.sin latRad
  let cosLat := Real.cos latRad
  let N := WGS84a / Real.sqrt (1 - WGS84e2 * sinLat * sinLat)
  { x := (N + geo.altitude) * cosLat * Real.cos lonRad
    y := (N + geo.altitude) * cosLat * Real.sin lonRad
    z := (N * (1 - WGS84e2) + geo.altitude) * sinLat }

/-- `ecefToENU` from `coordinates.ts`: rotate the ECEF difference vector into
the local East-North-Up frame at the origin. -/
def ecefToENU (target origin : ECEFPosition) (originGeo : GeoPosition) : ENUPosition :=
  let latRad := toRadians originGeo.latitude
  let lonRad := toRadians originGeo.longitude
  let sinLat := Real.sin latRad
  let cosLat := Real.cos latRad
  let sinLon := Real.sin lonRad
  let cosLon := Real.cos lonRad
  let dx := target.x - origin.x
  let dy := target.y - origin.y
  let dz := target.z - origin.z
  { east := -sinLon * dx + cosLon * dy
    north := -sinLat * cosLon * dx - sinLat * sinLon * dy + cosLat * dz
    up := cosLat * cosLon * dx + cosLat * sinLon * dy + sinLat * dz }

/-- `enuToThreeJS` from `coordinates.ts`: East → +X, Up → +Y, North → -Z. -/
def enuToThreeJS (enu : ENUPosition) : ThreeJSPosition :=
  { x := enu.east, y := enu.up, z := -enu.north }

/-- `applyHeading` from `coordinates.ts`: rotate the X/Z plane by the compass
heading, leaving Y unchanged. -/
def applyHeading (position : ThreeJSPosition) (headingDegrees : ℝ) : ThreeJSPosition :=
  let headingRad := toRadians headingDegrees
  let c := Real.cos headingRad
  let s := Real.sin headingRad
  { x := position.x * c - position.z * s
    y := position.y
    z := position.x * s + position.z * c }

/-- `getRelativePosition` from `coordinates.ts`: WGS84 → ECEF → ENU → Three.js,
then compass correction. -/
def getRelativePosition (target devicePosition : GeoPosition) (heading : ℝ) :
    ThreeJSPosition :=
  applyHeading
    (enuToThreeJS (ecefToENU (geodeticToECEF target) (geodeticToECEF devicePosition)
      devicePosition))
    heading

/-- `calculateDistance` from `coordinates.ts`: ECEF chord distance in meters. -/
def calculateDistance (pos1 pos2 : GeoPosition) : ℝ :=
  let ecef1 := geodeticToECEF pos1
  let ecef2 := geodeticToECEF pos2
  let dx := ecef2.x - ecef1.x
  let dy := ecef2.y - ecef1.y
  let dz := ecef2.z - ecef1.z
  Real.sqrt (dx * dx + dy * dy + dz * dz)

/-- Euclidean norm of a Three.js position vector. -/
def norm3 (p : ThreeJSPosition) : ℝ := Real.sqrt (p.x ^ 2 + p.y ^ 2 + p.z ^ 2)

/-- Closed form of the `circle` branch of `calculateFlightOffset`. -/
theorem circle_offset_eval (r mn mx sp timeMs : ℝ) :
    calculateFlightOffset ⟨.circle, r, mn, mx, sp⟩ timeMs =
      { latOffset := Real.sin (timeMs / 1000 * sp * (π / 15)) * r
        lonOffset := Real.cos (timeMs / 1000 * sp * (π / 15)) * r
        altOffset := mn +
          (Real.sin (timeMs / 1000 * sp * (π / 15) * 0.5) + 1) * 0.5 * (mx - mn) } := rfl

/-- Closed form of the `figure8` branch of `calculateFlightOffset`. -/
theorem figure8_offset_eval (r mn mx sp timeMs : ℝ) :
    calculateFlightOffset ⟨.figure8, r, mn, mx, sp⟩ timeMs =
      { latOffset := Real.sin (timeMs / 1000 * sp * (π / 15)) * r
        lonOffset := Real.sin (timeMs / 1000 * sp * (π / 15) * 2) * r * 0.5
        altOffset := mn +
          (Real.sin (timeMs / 1000 * sp * (π / 15) * 0.7) + 1) * 0.5 * (mx - mn) } := rfl

/-- Closed form of the `random` branch of `calculateFlightOffset`：segment seed
`⌊timeMs/5000⌋`, phase `(timeMs % 5000)/5000`, smoothstep interpolation between
the noise endpoints. -/
theorem random_offset_eval (r mn mx sp timeMs : ℝ) :
    calculateFlightOffset ⟨.random, r, mn, mx, sp⟩ timeMs =
      { latOffset := noise (⌊timeMs / 5000⌋ : ℤ) * r +
          (noise ((⌊timeMs / 5000⌋ : ℤ) + 1) * r - noise (⌊timeMs / 5000⌋ : ℤ) * r) *
            (jsMod timeMs 5000 / 5000 * (jsMod timeMs 5000 / 5000) *
              (3 - 2 * (jsMod timeMs 5000 / 5000)))
        lonOffset := noise ((⌊timeMs / 5000⌋ : ℤ) + 1000) * r +
          (noise ((⌊timeMs / 5000⌋ : ℤ) + 1001) * r -
              noise ((⌊timeMs / 5000⌋ : ℤ) + 1000) * r) *
            (jsMod timeMs 5000 / 5000 * (jsMod timeMs 5000 / 5000) *
              (3 - 2 * (jsMod timeMs 5000 / 5000)))
        altOffset := mn +
          (Real.sin (timeMs / 1000 * sp * (π / 15) * 0.3) + 1) * 0.5 * (mx - mn) } := rfl

/-- `sin 127.1 > 0.99`: reduce by `40π` to `(0, π/2)` and use the quadratic
lower bound on cosine at `40.5π - 127.1`. -/
theorem sin_127_1_gt : (0.99 : ℝ) < Real.sin 127.1 := by
  have hπ₁ := Real.pi_gt_d6
  have hπ₂ := Real.pi_lt_d6
  have h1 : Real.sin (127.1 : ℝ) = Real.sin (127.1 - 40 * π) := by
    conv_lhs =>
      rw [show (127.1 : ℝ) = 127.1 - 40 * π + (20 : ℤ) * (2 * π) by push_cast; ring]
    rw [Real.sin_add_int_mul_two_pi]
  have h2 : Real.sin (127.1 - 40 * π) = Real.cos (π / 2 - (127.1 - 40 * π)) :=
    (Real.cos_pi_div_two_sub _).symm
  have hy_pos : (0 : ℝ) < π / 2 - (127.1 - 40 * π) := by nlinarith
  have h3 : 1 - (π / 2 - (127.1 - 40 * π)) ^ 2 / 2 <
      Real.cos (π / 2 - (127.1 - 40 * π)) :=
    Real.one_sub_sq_div_two_lt_cos (ne_of_gt hy_pos)
  rw [h1, h2]
  nlinarith

/-- `cos 311.7 < -0.76`: reduce by `98π`, split off one more `π`, and use the
quadratic lower bound on cosine at `311.7 - 99π`. -/
theorem cos_311_7_lt : Real.cos 311.7 < -0.76 := by
  have hπ₁ := Real.pi_gt_d6
  have hπ₂ := Real.pi_lt_d6
  have h1 : Real.cos (311.7 : ℝ) = Real.cos (311.7 - 99 * π + π) := by
    conv_lhs =>
      rw [show (311.7 : ℝ) = 311.7 - 99 * π + π + (49 : ℤ) * (2 * π) by push_cast; ring]
    rw [Real.cos_add_int_mul_two_pi]
  have h2 : Real.cos (311.7 - 99 * π + π) = -Real.cos (311.7 - 99 * π) :=
    Real.cos_add_pi _
  have hw_pos : (0 : ℝ) < 311.7 - 99 * π := by nlinarith
  have h3 : 1 - (311.7 - 99 * π) ^ 2 / 2 < Real.cos (311.7 - 99 * π) :=
    Real.one_sub_sq_div_two_lt_cos (ne_of_gt hw_pos)
  rw [h1, h2]
  nlinarith

/-- The noise function vanishes at `0`. -/
theorem noise_zero : noise 0 = 0 := by
  simp [noise]

/-- The noise value at seed `1` is strictly negative. -/
theorem noise_one_neg : noise 1 < 0 := by
  have h1 := sin_127_1_gt
  have h2 := cos_311_7_lt
  have : noise 1 = Real.sin 127.1 * Real.cos 311.7 := by norm_num [noise]
  rw [this]
  nlinarith

/-- The noise value at seed `-1` exceeds `0.75`. -/
theorem noise_neg_one_gt : (0.75 : ℝ) < noise (-1) := by
  have h1 := sin_127_1_gt
  have h2 := cos_311_7_lt
  have : noise (-1) = -(Real.sin 127.1 * Real.cos 311.7) := by
    norm_num [noise]
  rw [this]
  nlinarith

/-- C1 counterexample: with `pattern = circle`, `speed = 1`, `radius = 1`,
altitude band `[0, 1]`, the offsets at `t = 15000` and `t = 45000` differ
(`altOffset` is `1` and `0` respectively), so the full offset record is not
`30000`-periodic. -/
theorem circle_offset_not_30000_periodic :
    calculateFlightOffset ⟨.circle, 1, 0, 1, 1⟩ 15000 ≠
      calculateFlightOffset ⟨.circle, 1, 0, 1, 1⟩ 45000 := by
  intro h
  have halt := congrArg FlightOffset.altOffset h
  rw [circle_offset_eval, circle_offset_eval] at halt
  simp only at halt
  rw [show (15000 : ℝ) / 1000 * 1 * (π / 15) * 0.5 = π / 2 by ring,
    show (45000 : ℝ) / 1000 * 1 * (π / 15) * 0.5 = π / 2 + π by ring,
    Real.sin_add_pi, Real.sin_pi_div_two] at halt
  norm_num at halt

/-- C1 amended: for `pattern = circle` with `speed = 1` the horizontal offsets
are periodic with period `30000` ms, while the altitude offset is periodic with
period `60000` ms (its phase advances at half rate). -/
theorem circle_offset_periodicity (r mn mx timeMs : ℝ) :
    (calculateFlightOffset ⟨.circle, r, mn, mx, 1⟩ (timeMs + 30000)).latOffset =
        (calculateFlightOffset ⟨.circle, r, mn, mx, 1⟩ timeMs).latOffset ∧
      (calculateFlightOffset ⟨.circle, r, mn, mx, 1⟩ (timeMs + 30000)).lonOffset =
        (calculateFlightOffset ⟨.circle, r, mn, mx, 1⟩ timeMs).lonOffset ∧
      (calculateFlightOffset ⟨.circle, r, mn, mx, 1⟩ (timeMs + 60000)).altOffset =
        (calculateFlightOffset ⟨.circle, r, mn, mx, 1⟩ timeMs).altOffset := by
  rw [circle_offset_eval, circle_offset_eval, circle_offset_eval]
  refine ⟨?_, ?_, ?_⟩
  · simp only
    rw [show (timeMs + 30000) / 1000 * 1 * (π / 15) =
      timeMs / 1000 * 1 * (π / 15) + 2 * π by ring, Real.sin_add_two_pi]
  · simp only
    rw [show (timeMs + 30000) / 1000 * 1 * (π / 15) =
      timeMs / 1000 * 1 * (π / 15) + 2 * π by ring, Real.cos_add_two_pi]
  · simp only
    rw [show (timeMs + 60000) / 1000 * 1 * (π / 15) * 0.5 =
      timeMs / 1000 * 1 * (π / 15) * 0.5 + 2 * π by ring, Real.sin_add_two_pi]

/-- C2 counterexample: with `pattern = random` and `speed = 0` the trajectory is
not constant in time: at `radius = 1` the horizontal offset at `timeMs = 0`
differs from the one at `timeMs = 2500` (the segment seed and phase depend on
`timeMs` directly, not on the speed-scaled angle). -/
theorem zero_speed_random_not_constant :
    calculateFlightOffset ⟨.random, 1, 0, 0, 0⟩ 0 ≠
      calculateFlightOffset ⟨.random, 1, 0, 0, 0⟩ 2500 := by
  intro h
  have hlat := congrArg FlightOffset.latOffset h
  rw [random_offset_eval, random_offset_eval] at hlat
  simp only at hlat
  have hfloor0 : ⌊(0 : ℝ) / 5000⌋ = 0 := by norm_num
  have hfloor2500 : ⌊(2500 : ℝ) / 5000⌋ = 0 := by
    rw [Int.floor_eq_zero_iff]
    constructor <;> norm_num
  have hmod0 : jsMod 0 5000 = 0 := by
    simp [jsMod, jsTrunc]
  have hmod2500 : jsMod 2500 5000 = 2500 := by
    have htr : jsTrunc ((2500 : ℝ) / 5000) = 0 := by
      rw [jsTrunc, if_pos (by norm_num)]
      rw [Int.floor_eq_zero_iff]
      constructor <;> norm_num
    rw [jsMod, htr]
    norm_num
  rw [hfloor0, hfloor2500, hmod0, hmod2500] at hlat
  push_cast at hlat
  rw [noise_zero] at hlat
  norm_num at hlat
  have := noise_one_neg
  nlinarith

/-- C2 amended: with `speed = 0` the `circle` and `figure8` patterns produce a
trajectory constant in time, and the `random` pattern has a constant altitude
offset (its horizontal offsets still vary with `timeMs`). -/
theorem zero_speed_static (r mn mx t1 t2 : ℝ) :
    calculateFlightOffset ⟨.circle, r, mn, mx, 0⟩ t1 =
        calculateFlightOffset ⟨.circle, r, mn, mx, 0⟩ t2 ∧
      calculateFlightOffset ⟨.figure8, r, mn, mx, 0⟩ t1 =
        calculateFlightOffset ⟨.figure8, r, mn, mx, 0⟩ t2 ∧
      (calculateFlightOffset ⟨.random, r, mn, mx, 0⟩ t1).altOffset =
        (calculateFlightOffset ⟨.random, r, mn, mx, 0⟩ t2).altOffset := by
  refine ⟨?_, ?_, ?_⟩
  · rw [circle_offset_eval, circle_offset_eval]
    simp [mul_zero, zero_mul]
  · rw [figure8_offset_eval, figure8_offset_eval]
    simp [mul_zero, zero_mul]
  · rw [random_offset_eval, random_offset_eval]
    simp [mul_zero, zero_mul]

/-- C4: under the config invariants (`radius ≥ 0`, `minAltitude ≤ maxAltitude`),
the circle pattern keeps both horizontal offsets within `radius` in absolute
value, and every pattern keeps the altitude offset inside
`[minAltitude, maxAltitude]`. -/
theorem flightOffset_bounded (c : FlightConfig) (t : ℝ) (hr : 0 ≤ c.radius)
    (hm : c.minAltitude ≤ c.maxAltitude) :
    (c.pattern = .circle →
        |(calculateFlightOffset c t).latOffset| ≤ c.radius ∧
          |(calculateFlightOffset c t).lonOffset| ≤ c.radius) ∧
      c.minAltitude ≤ (calculateFlightOffset c t).altOffset ∧
      (calculateFlightOffset c t).altOffset ≤ c.maxAltitude := by
  obtain ⟨pat, r, mn, mx, sp⟩ := c
  simp only at hr hm
  cases pat
  case circle =>
    rw [circle_offset_eval]
    refine ⟨fun _ => ⟨?_, ?_⟩, ?_, ?_⟩
    · rw [abs_mul, abs_of_nonneg hr]
      exact mul_le_of_le_one_left hr (Real.abs_sin_le_one _)
    · rw [abs_mul, abs_of_nonneg hr]
      exact mul_le_of_le_one_left hr (Real.abs_cos_le_one _)
    · simp only
      nlinarith [Real.neg_one_le_sin (t / 1000 * sp * (π / 15) * 0.5),
        Real.sin_le_one (t / 1000 * sp * (π / 15) * 0.5)]
    · simp only
      nlinarith [Real.neg_one_le_sin (t / 1000 * sp * (π / 15) * 0.5),
        Real.sin_le_one (t / 1000 * sp * (π / 15) * 0.5)]
  case figure8 =>
    rw [figure8_offset_eval]
    refine ⟨fun h => by simp at h, ?_, ?_⟩
    · simp only
      nlinarith [Real.neg_one_le_sin (t / 1000 * sp * (π / 15) * 0.7),
        Real.sin_le_one (t / 1000 * sp * (π / 15) * 0.7)]
    · simp only
      nlinarith [Real.neg_one_le_sin (t / 1000 * sp * (π / 15) * 0.7),
        Real.sin_le_one (t / 1000 * sp * (π / 15) * 0.7)]
  case random =>
    rw [random_offset_eval]
    refine ⟨fun h => by simp at h, ?_, ?_⟩
    · simp only
      nlinarith [Real.neg_one_le_sin (t / 1000 * sp * (π / 15) * 0.3),
        Real.sin_le_one (t / 1000 * sp * (π / 15) * 0.3)]
    · simp only
      nlinarith [Real.neg_one_le_sin (t / 1000 * sp * (π / 15) * 0.3),
        Real.sin_le_one (t / 1000 * sp * (π / 15) * 0.3)]

/-- Witness for C4 at the default configuration and `t = 0`. -/
theorem flightOffset_bounded_witness :
    (0 : ℝ) ≤ defaultFlightConfig.radius ∧
      defaultFlightConfig.minAltitude ≤ defaultFlightConfig.maxAltitude ∧
      ((defaultFlightConfig.pattern = .circle →
          |(calculateFlightOffset defaultFlightConfig 0).latOffset| ≤
              defaultFlightConfig.radius ∧
            |(calculateFlightOffset defaultFlightConfig 0).lonOffset| ≤
              defaultFlightConfig.radius) ∧
        defaultFlightConfig.minAltitude ≤
          (calculateFlightOffset defaultFlightConfig 0).altOffset ∧
        (calculateFlightOffset defaultFlightConfig 0).altOffset ≤
          defaultFlightConfig.maxAltitude) :=
  ⟨by norm_num [defaultFlightConfig], by norm_num [defaultFlightConfig],
    flightOffset_bounded defaultFlightConfig 0 (by norm_num [defaultFlightConfig])
      (by norm_num [defaultFlightConfig])⟩

/-- C5: the relative render position of a point with respect to itself is the
zero vector, for every heading. -/
theorem relativePosition_self_eq_zero (p : GeoPosition) (h : ℝ) :
    getRelativePosition p p h = ⟨0, 0, 0⟩ := by
  ext <;>
    simp only [getRelativePosition, applyHeading, enuToThreeJS, ecefToENU,
      geodeticToECEF] <;>
    ring

/-- `applyHeading` preserves the Euclidean norm (it is a rotation of X/Z). -/
theorem norm3_applyHeading (p : ThreeJSPosition) (h : ℝ) :
    norm3 (applyHeading p h) = norm3 p := by
  simp only [norm3, applyHeading]
  congr 1
  have hsc := Real.sin_sq_add_cos_sq (toRadians h)
  nlinarith [hsc]

/-- C6: the Euclidean norm of `getRelativePosition` does not depend on the
heading: heading correction is a pure rotation. -/
theorem norm_relativePosition_heading_invariant (target origin : GeoPosition)
    (h1 h2 : ℝ) :
    norm3 (getRelativePosition target origin h1) =
      norm3 (getRelativePosition target origin h2) := by
  unfold getRelativePosition
  rw [norm3_applyHeading, norm3_applyHeading]

/-- C7: `calculateCurrentPosition` returns exactly the base coordinates shifted
by the flight offset, with the flat-earth meter-to-degree conversion factors. -/
theorem calculateCurrentPosition_formula (base : GeoPosition) (config : FlightConfig)
    (timeMs : ℝ) :
    calculateCurrentPosition base config timeMs =
      { latitude := base.latitude +
          (calculateFlightOffset config timeMs).latOffset / 111320
        longitude := base.longitude +
          (calculateFlightOffset config timeMs).lonOffset /
            (111320 * Real.cos (base.latitude * π / 180))
        altitude := base.altitude + (calculateFlightOffset config timeMs).altOffset } := by
  unfold calculateCurrentPosition
  rw [jsOr0_eq]

/-- C8: `calculateCurrentPosition` is deterministic: equal input tuples give
equal outputs (the model has no hidden state). -/
theorem calculateCurrentPosition_deterministic (b1 b2 : GeoPosition)
    (c1 c2 : FlightConfig) (t1 t2 : ℝ) (hb : b1 = b2) (hc : c1 = c2) (ht : t1 = t2) :
    calculateCurrentPosition b1 c1 t1 = calculateCurrentPosition b2 c2 t2 := by
  rw [hb, hc, ht]

/-- Witness for C8 at a concrete input tuple. -/
theorem calculateCurrentPosition_deterministic_witness :
    calculateCurrentPosition ⟨35, 139, 0⟩ defaultFlightConfig 1000 =
      calculateCurrentPosition ⟨35, 139, 0⟩ defaultFlightConfig 1000 :=
  calculateCurrentPosition_deterministic _ _ _ _ _ _ rfl rfl rfl

/-- C9: `calculateDistance` is symmetric in its two arguments. -/
theorem calculateDistance_symm (a b : GeoPosition) :
    calculateDistance a b = calculateDistance b a := by
  simp only [calculateDistance]
  congr 1
  ring

/-- The noise function stays within `[-1, 1]`. -/
theorem noise_abs_le_one (s : ℝ) : |noise s| ≤ 1 := by
  rw [noise, abs_mul]
  exact mul_le_one₀ (Real.abs_sin_le_one _) (abs_nonneg _) (Real.abs_cos_le_one _)

/-- For a non-negative dividend, the JavaScript remainder by `5000` lies in
`[0, 5000)`. -/
theorem jsMod_5000_mem (t : ℝ) (ht : 0 ≤ t) :
    0 ≤ jsMod t 5000 ∧ jsMod t 5000 < 5000 := by
  have htr : jsTrunc (t / 5000) = ⌊t / 5000⌋ := by
    rw [jsTrunc, if_pos (by positivity)]
  have h1 := Int.fract_nonneg (t / 5000)
  have h2 := Int.fract_lt_one (t / 5000)
  rw [Int.fract] at h1 h2
  constructor
  · rw [jsMod, htr]; nlinarith
  · rw [jsMod, htr]; nlinarith

/-- C10 counterexample: with `pattern = random`, `radius = 1`, `speed = 1`, at
the negative time `timeMs = -4900` the JavaScript remainder gives a negative
phase (`-0.98`), the smoothstep value `4.763584` leaves `[0, 1]`, and the
horizontal offset extrapolates past the radius: `|latOffset| > 1`. -/
theorem random_latOffset_exceeds_radius :
    (1 : ℝ) < |(calculateFlightOffset ⟨.random, 1, 0, 0, 1⟩ (-4900)).latOffset| := by
  rw [random_offset_eval]
  simp only
  have hfl : ⌊(-4900 : ℝ) / 5000⌋ = -1 := by
    rw [Int.floor_eq_iff]
    constructor <;> norm_num
  have htr : jsTrunc ((-4900 : ℝ) / 5000) = 0 := by
    rw [jsTrunc, if_neg (by norm_num)]
    rw [Int.ceil_eq_zero_iff]
    constructor <;> norm_num
  have hmod : jsMod (-4900) 5000 = -4900 := by
    rw [jsMod, htr]
    norm_num
  rw [hfl, hmod]
  push_cast
  norm_num [noise_zero]
  have h := noise_neg_one_gt
  have hneg : noise (-1) + -(noise (-1) * (74431 / 15625)) < 0 := by linarith
  rw [abs_of_neg hneg]
  linarith

/-- C10 amended: the `figure8` pattern keeps `|latOffset| ≤ radius` and
`|lonOffset| ≤ radius/2` at every time, and the `random` pattern keeps both
horizontal offsets within `radius` for every `timeMs ≥ 0` (phase then lies in
`[0, 1)` and the smoothstep interpolation is a convex combination of noise
endpoints bounded by the radius). -/
theorem horizontal_offset_bounded (r mn mx sp t tr : ℝ) (hr : 0 ≤ r) (htr : 0 ≤ tr) :
    |(calculateFlightOffset ⟨.figure8, r, mn, mx, sp⟩ t).latOffset| ≤ r ∧
      |(calculateFlightOffset ⟨.figure8, r, mn, mx, sp⟩ t).lonOffset| ≤ r / 2 ∧
      |(calculateFlightOffset ⟨.random, r, mn, mx, sp⟩ tr).latOffset| ≤ r ∧
      |(calculateFlightOffset ⟨.random, r, mn, mx, sp⟩ tr).lonOffset| ≤ r := by
  obtain ⟨hm0, hm1⟩ := jsMod_5000_mem tr htr
  have hp0 : 0 ≤ jsMod tr 5000 / 5000 := by positivity
  have hp1 : jsMod tr 5000 / 5000 < 1 := by
    rw [div_lt_one (by norm_num)]; exact hm1
  have hs0 : 0 ≤ jsMod tr 5000 / 5000 * (jsMod tr 5000 / 5000) *
      (3 - 2 * (jsMod tr 5000 / 5000)) := by nlinarith
  have hs1 : jsMod tr 5000 / 5000 * (jsMod tr 5000 / 5000) *
      (3 - 2 * (jsMod tr 5000 / 5000)) ≤ 1 := by nlinarith [sq_nonneg (1 - jsMod tr 5000 / 5000)]
  have hbound : ∀ p q : ℝ, |p| ≤ r → |q| ≤ r →
      |p + (q - p) * (jsMod tr 5000 / 5000 * (jsMod tr 5000 / 5000) *
        (3 - 2 * (jsMod tr 5000 / 5000)))| ≤ r := by
    intro p q hp hq
    obtain ⟨hp1', hp2'⟩ := abs_le.mp hp
    obtain ⟨hq1', hq2'⟩ := abs_le.mp hq
    rw [abs_le]
    constructor <;> nlinarith
  have hnoise : ∀ s : ℝ, |noise s * r| ≤ r := by
    intro s
    rw [abs_mul, abs_of_nonneg hr]
    exact mul_le_of_le_one_left hr (noise_abs_le_one s)
  refine ⟨?_, ?_, ?_, ?_⟩
  · rw [figure8_offset_eval]
    simp only
    rw [abs_mul, abs_of_nonneg hr]
    exact mul_le_of_le_one_left hr (Real.abs_sin_le_one _)
  · rw [figure8_offset_eval]
    simp only
    rw [show Real.sin (t / 1000 * sp * (π / 15) * 2) * r * 0.5 =
      Real.sin (t / 1000 * sp * (π / 15) * 2) * (r * 0.5) by ring, abs_mul,
      abs_of_nonneg (by linarith : (0 : ℝ) ≤ r * 0.5)]
    have := mul_le_of_le_one_left (by linarith : (0 : ℝ) ≤ r * 0.5)
      (Real.abs_sin_le_one (t / 1000 * sp * (π / 15) * 2))
    linarith
  · rw [random_offset_eval]
    simp only
    exact hbound _ _ (hnoise _) (hnoise _)
  · rw [random_offset_eval]
    simp only
    exact hbound _ _ (hnoise _) (hnoise _)

/-- Witness for C10's amended bound at `radius = 1` and time `0`. -/
theorem horizontal_offset_bounded_witness :
    (0 : ℝ) ≤ 1 ∧ (0 : ℝ) ≤ 0 ∧
      (|(calculateFlightOffset ⟨.figure8, 1, 0, 0, 1⟩ 0).latOffset| ≤ 1 ∧
        |(calculateFlightOffset ⟨.figure8, 1, 0, 0, 1⟩ 0).lonOffset| ≤ 1 / 2 ∧
        |(calculateFlightOffset ⟨.random, 1, 0, 0, 1⟩ 0).latOffset| ≤ 1 ∧
        |(calculateFlightOffset ⟨.random, 1, 0, 0, 1⟩ 0).lonOffset| ≤ 1) :=
  ⟨by norm_num, by norm_num,
    horizontal_offset_bounded 1 0 0 1 0 0 (by norm_num) (by norm_num)⟩

/-- On the open segment `(5000(k-1), 5000k)` with `k ≥ 1`, the `random` branch
interpolates between the noise endpoints of segment `k-1` with smoothstep of
the local phase. -/
theorem random_offset_on_segment (r mn mx sp : ℝ) (k : ℤ) (hk : 1 ≤ k) (u : ℝ)
    (hu : u ∈ Ioo (5000 * ((k : ℝ) - 1)) (5000 * (k : ℝ))) :
    (calculateFlightOffset ⟨.random, r, mn, mx, sp⟩ u).latOffset =
        noise ((k : ℝ) - 1) * r + (noise (k : ℝ) * r - noise ((k : ℝ) - 1) * r) *
          ((u - 5000 * ((k : ℝ) - 1)) / 5000 * ((u - 5000 * ((k : ℝ) - 1)) / 5000) *
            (3 - 2 * ((u - 5000 * ((k : ℝ) - 1)) / 5000))) ∧
      (calculateFlightOffset ⟨.random, r, mn, mx, sp⟩ u).lonOffset =
        noise ((k : ℝ) + 999) * r + (noise ((k : ℝ) + 1000) * r -
            noise ((k : ℝ) + 999) * r) *
          ((u - 5000 * ((k : ℝ) - 1)) / 5000 * ((u - 5000 * ((k : ℝ) - 1)) / 5000) *
            (3 - 2 * ((u - 5000 * ((k : ℝ) - 1)) / 5000))) := by
  obtain ⟨hu1, hu2⟩ := hu
  have hk1 : (1 : ℝ) ≤ (k : ℝ) := by exact_mod_cast hk
  have hupos : 0 < u := by nlinarith
  have hdiv1 : (k : ℝ) - 1 < u / 5000 := by
    rw [lt_div_iff₀ (by norm_num)]; linarith
  have hdiv2 : u / 5000 < (k : ℝ) := by
    rw [div_lt_iff₀ (by norm_num)]; linarith
  have hfl : ⌊u / 5000⌋ = k - 1 := by
    rw [Int.floor_eq_iff]
    push_cast
    constructor <;> linarith
  have htrc : jsTrunc (u / 5000) = k - 1 := by
    rw [jsTrunc, if_pos (by positivity)]
    exact hfl
  have hmod : jsMod u 5000 = u - 5000 * ((k : ℝ) - 1) := by
    rw [jsMod, htrc]
    push_cast
    ring
  rw [random_offset_eval, hfl, hmod]
  push_cast
  constructor
  · rw [show (k : ℝ) - 1 + 1 = (k : ℝ) by ring]
  · rw [show (k : ℝ) - 1 + 1000 = (k : ℝ) + 999 by ring,
      show (k : ℝ) - 1 + 1001 = (k : ℝ) + 1000 by ring]

/-- At a boundary time `timeMs = 5000k` with `k ≥ 0`, the `random` branch's
phase is `0` and the horizontal offsets are exactly the segment-`k` noise
endpoints. -/
theorem random_offset_at_boundary (r mn mx sp : ℝ) (k : ℤ) (hk : 0 ≤ k) :
    (calculateFlightOffset ⟨.random, r, mn, mx, sp⟩ (5000 * (k : ℝ))).latOffset =
        noise (k : ℝ) * r ∧
      (calculateFlightOffset ⟨.random, r, mn, mx, sp⟩ (5000 * (k : ℝ))).lonOffset =
        noise ((k : ℝ) + 1000) * r := by
  have hdiv : (5000 : ℝ) * (k : ℝ) / 5000 = (k : ℝ) := by ring
  have hfl : ⌊(5000 : ℝ) * (k : ℝ) / 5000⌋ = k := by
    rw [hdiv, Int.floor_intCast]
  have htrc : jsTrunc ((5000 : ℝ) * (k : ℝ) / 5000) = k := by
    rw [jsTrunc, if_pos (by rw [hdiv]; exact_mod_cast hk)]
    exact hfl
  have hmod : jsMod (5000 * (k : ℝ)) 5000 = 0 := by
    rw [jsMod, htrc]
    ring
  rw [random_offset_eval, hfl, hmod]
  norm_num

/-- C3 amended: at every boundary `timeMs = 5000k` with `k ≥ 1` the horizontal
offsets of the `random` pattern are left-continuous: the one-sided limits from
below equal the values at the boundary, namely `noise(k)·radius` and
`noise(k+1000)·radius`.  (At boundaries `k ≤ 0` the JavaScript remainder makes
the phase negative and the property fails; see the counterexample.) -/
theorem random_offset_left_continuous (k : ℤ) (hk : 1 ≤ k) (r mn mx sp : ℝ) :
    Tendsto (fun u => (calculateFlightOffset ⟨.random, r, mn, mx, sp⟩ u).latOffset)
        (𝓝[<] (5000 * (k : ℝ))) (𝓝 (noise (k : ℝ) * r)) ∧
      (calculateFlightOffset ⟨.random, r, mn, mx, sp⟩ (5000 * (k : ℝ))).latOffset =
        noise (k : ℝ) * r ∧
      Tendsto (fun u => (calculateFlightOffset ⟨.random, r, mn, mx, sp⟩ u).lonOffset)
        (𝓝[<] (5000 * (k : ℝ))) (𝓝 (noise ((k : ℝ) + 1000) * r)) ∧
      (calculateFlightOffset ⟨.random, r, mn, mx, sp⟩ (5000 * (k : ℝ))).lonOffset =
        noise ((k : ℝ) + 1000) * r := by
  have hk1 : (1 : ℝ) ≤ (k : ℝ) := by exact_mod_cast hk
  have hab : 5000 * ((k : ℝ) - 1) < 5000 * (k : ℝ) := by linarith
  have hmem : Ioo (5000 * ((k : ℝ) - 1)) (5000 * (k : ℝ)) ∈ 𝓝[<] (5000 * (k : ℝ)) :=
    Ioo_mem_nhdsWithin_Iio' hab
  have hlatF : Tendsto (fun u : ℝ =>
      noise ((k : ℝ) - 1) * r + (noise (k : ℝ) * r - noise ((k : ℝ) - 1) * r) *
        ((u - 5000 * ((k : ℝ) - 1)) / 5000 * ((u - 5000 * ((k : ℝ) - 1)) / 5000) *
          (3 - 2 * ((u - 5000 * ((k : ℝ) - 1)) / 5000))))
      (𝓝 (5000 * (k : ℝ))) (𝓝 (noise (k : ℝ) * r)) := by
    have hc : Continuous (fun u : ℝ =>
        noise ((k : ℝ) - 1) * r + (noise (k : ℝ) * r - noise ((k : ℝ) - 1) * r) *
          ((u - 5000 * ((k : ℝ) - 1)) / 5000 * ((u - 5000 * ((k : ℝ) - 1)) / 5000) *
            (3 - 2 * ((u - 5000 * ((k : ℝ) - 1)) / 5000)))) := by fun_prop
    have h := hc.tendsto (5000 * (k : ℝ))
    have hval : noise ((k : ℝ) - 1) * r + (noise (k : ℝ) * r - noise ((k : ℝ) - 1) * r) *
        ((5000 * (k : ℝ) - 5000 * ((k : ℝ) - 1)) / 5000 *
          ((5000 * (k : ℝ) - 5000 * ((k : ℝ) - 1)) / 5000) *
          (3 - 2 * ((5000 * (k : ℝ) - 5000 * ((k : ℝ) - 1)) / 5000))) =
        noise (k : ℝ) * r := by ring
    rw [hval] at h
    exact h
  have hlonF : Tendsto (fun u : ℝ =>
      noise ((k : ℝ) + 999) * r + (noise ((k : ℝ) + 1000) * r -
          noise ((k : ℝ) + 999) * r) *
        ((u - 5000 * ((k : ℝ) - 1)) / 5000 * ((u - 5000 * ((k : ℝ) - 1)) / 5000) *
          (3 - 2 * ((u - 5000 * ((k : ℝ) - 1)) / 5000))))
      (𝓝 (5000 * (k : ℝ))) (𝓝 (noise ((k : ℝ) + 1000) * r)) := by
    have hc : Continuous (fun u : ℝ =>
        noise ((k : ℝ) + 999) * r + (noise ((k : ℝ) + 1000) * r -
            noise ((k : ℝ) + 999) * r) *
          ((u - 5000 * ((k : ℝ) - 1)) / 5000 * ((u - 5000 * ((k : ℝ) - 1)) / 5000) *
            (3 - 2 * ((u - 5000 * ((k : ℝ) - 1)) / 5000)))) := by fun_prop
    have h := hc.tendsto (5000 * (k : ℝ))
    have hval : noise ((k : ℝ) + 999) * r + (noise ((k : ℝ) + 1000) * r -
        noise ((k : ℝ) + 999) * r) *
        ((5000 * (k : ℝ) - 5000 * ((k : ℝ) - 1)) / 5000 *
          ((5000 * (k : ℝ) - 5000 * ((k : ℝ) - 1)) / 5000) *
          (3 - 2 * ((5000 * (k : ℝ) - 5000 * ((k : ℝ) - 1)) / 5000))) =
        noise ((k : ℝ) + 1000) * r := by ring
    rw [hval] at h
    exact h
  refine ⟨?_, (random_offset_at_boundary r mn mx sp k (by omega)).1, ?_,
    (random_offset_at_boundary r mn mx sp k (by omega)).2⟩
  · refine Tendsto.congr' ?_ (hlatF.mono_left nhdsWithin_le_nhds)
    exact eventuallyEq_of_mem hmem
      (fun u hu => ((random_offset_on_segment r mn mx sp k hk u hu).1).symm)
  · refine Tendsto.congr' ?_ (hlonF.mono_left nhdsWithin_le_nhds)
    exact eventuallyEq_of_mem hmem
      (fun u hu => ((random_offset_on_segment r mn mx sp k hk u hu).2).symm)

/-- Witness for C3's amended left-continuity at `k = 1`, `radius = 1`. -/
theorem random_offset_left_continuous_witness :
    (1 : ℤ) ≤ 1 ∧
      (Tendsto (fun u => (calculateFlightOffset ⟨.random, 1, 0, 0, 1⟩ u).latOffset)
          (𝓝[<] (5000 * ((1 : ℤ) : ℝ))) (𝓝 (noise ((1 : ℤ) : ℝ) * 1)) ∧
        (calculateFlightOffset ⟨.random, 1, 0, 0, 1⟩
            (5000 * ((1 : ℤ) : ℝ))).latOffset = noise ((1 : ℤ) : ℝ) * 1 ∧
        Tendsto (fun u => (calculateFlightOffset ⟨.random, 1, 0, 0, 1⟩ u).lonOffset)
          (𝓝[<] (5000 * ((1 : ℤ) : ℝ))) (𝓝 (noise (((1 : ℤ) : ℝ) + 1000) * 1)) ∧
        (calculateFlightOffset ⟨.random, 1, 0, 0, 1⟩
            (5000 * ((1 : ℤ) : ℝ))).lonOffset = noise (((1 : ℤ) : ℝ) + 1000) * 1) :=
  ⟨le_refl 1, random_offset_left_continuous 1 (le_refl 1) 1 0 0 1⟩

/-- On the open segment `(-5000, 0)` the `random` branch (radius `1`, speed `1`)
has seed `-1` but a negative phase (the JavaScript remainder keeps the sign of
the dividend), so its horizontal offset interpolates from `noise(-1)` with a
smoothstep that tends to `0`, not `1`, toward the right end. -/
theorem random_latOffset_on_neg_segment (u : ℝ) (hu : u ∈ Ioo (-5000 : ℝ) 0) :
    (calculateFlightOffset ⟨.random, 1, 0, 0, 1⟩ u).latOffset =
      noise (-1) + (0 - noise (-1)) *
        (u / 5000 * (u / 5000) * (3 - 2 * (u / 5000))) := by
  obtain ⟨hu1, hu2⟩ := hu
  have hdiv1 : (-1 : ℝ) < u / 5000 := by
    rw [lt_div_iff₀ (by norm_num)]; linarith
  have hdiv2 : u / 5000 < 0 := by
    apply div_neg_of_neg_of_pos hu2
    norm_num
  have hfl : ⌊u / 5000⌋ = -1 := by
    rw [Int.floor_eq_iff]
    push_cast
    constructor <;> linarith
  have htrc : jsTrunc (u / 5000) = 0 := by
    rw [jsTrunc, if_neg (by linarith)]
    rw [Int.ceil_eq_zero_iff]
    exact ⟨hdiv1, le_of_lt hdiv2⟩
  have hmod : jsMod u 5000 = u := by
    rw [jsMod, htrc]
    norm_num
  rw [random_offset_eval, hfl, hmod]
  push_cast
  rw [show (-1 : ℝ) + 1 = 0 by ring, noise_zero]
  ring

/-- C3 counterexample: at the boundary `timeMs = 0` (`k = 0`) the `random`
pattern's horizontal offset is *not* left-continuous: approaching from below
the offset tends to `noise(-1) > 0.75`, while the value at `0` is
`noise(0) = 0`, a discontinuous jump. -/
theorem random_offset_discontinuous_at_zero :
    ¬ Tendsto (fun u => (calculateFlightOffset ⟨.random, 1, 0, 0, 1⟩ u).latOffset)
        (𝓝[<] (0 : ℝ))
        (𝓝 ((calculateFlightOffset ⟨.random, 1, 0, 0, 1⟩ 0).latOffset)) := by
  intro habs
  have hval0 : (calculateFlightOffset ⟨.random, 1, 0, 0, 1⟩ 0).latOffset = 0 := by
    have h := (random_offset_at_boundary 1 0 0 1 0 (le_refl 0)).1
    norm_num [noise_zero] at h
    exact h
  have hmem : Ioo (-5000 : ℝ) 0 ∈ 𝓝[<] (0 : ℝ) :=
    Ioo_mem_nhdsWithin_Iio' (by norm_num)
  have hGcont : Tendsto (fun u : ℝ => noise (-1) + (0 - noise (-1)) *
      (u / 5000 * (u / 5000) * (3 - 2 * (u / 5000)))) (𝓝 (0 : ℝ))
      (𝓝 (noise (-1))) := by
    have hc : Continuous (fun u : ℝ => noise (-1) + (0 - noise (-1)) *
        (u / 5000 * (u / 5000) * (3 - 2 * (u / 5000)))) := by fun_prop
    have h := hc.tendsto 0
    have hval : noise (-1) + (0 - noise (-1)) *
        ((0 : ℝ) / 5000 * ((0 : ℝ) / 5000) * (3 - 2 * ((0 : ℝ) / 5000))) =
        noise (-1) := by ring
    rw [hval] at h
    exact h
  have hG : Tendsto (fun u => (calculateFlightOffset ⟨.random, 1, 0, 0, 1⟩ u).latOffset)
      (𝓝[<] (0 : ℝ)) (𝓝 (noise (-1))) := by
    refine Tendsto.congr' ?_ (hGcont.mono_left nhdsWithin_le_nhds)
    exact eventuallyEq_of_mem hmem
      (fun u hu => (random_latOffset_on_neg_segment u hu).symm)
  rw [hval0] at habs
  have : noise (-1) = 0 := tendsto_nhds_unique hG habs
  have h75 := noise_neg_one_gt
  linarith

end ARMap

end
